import Mathlib

/-!
Verification of the cursor-clamp tick loop (src/src/main.rs).

The program polls, each tick: the focused process (`get_active_process`),
whether the selected mouse button is down (`get_mouse_button_pressed`),
and — on a capture edge — the pointer position (`get_mouse_position`);
on a release edge it calls `set_mouse_position`.  We embed the loop body
(main.rs lines 123-162) as a pure function from the loop state and one
tick's environment snapshot to the next state plus the ordered list of
observable events (probe calls and log lines) the tick performs.
-/

namespace CursorClamp

/-- The winapi virtual-key code `VK_LBUTTON` (0x01), main.rs line 7. -/
def LEFT_MOUSE_BUTTON : Int := 1

/-- The winapi virtual-key code `VK_RBUTTON` (0x02), main.rs line 6. -/
def RIGHT_MOUSE_BUTTON : Int := 2

/-- The winapi virtual-key code `VK_MBUTTON` (0x04), main.rs line 8. -/
def MIDDLE_MOUSE_BUTTON : Int := 4

/-- One tick's environment snapshot: what the OS would answer if queried
this tick.  `readResult`/`writeOk` model the fallible outcomes of
`get_mouse_position` / `set_mouse_position` (`none` = `Err`). -/
structure TickInput where
  activeProcess : Option String
  buttonDown : Bool
  readResult : Option (Int × Int)
  writeOk : Bool
  deriving DecidableEq, Repr

/-- The loop's mutable state, main.rs lines 103-105. -/
structure LoopState where
  mousePosition : Int × Int
  mousePressed : Bool
  lastMousePressed : Bool
  deriving DecidableEq, Repr

/-- Initial state, main.rs lines 103-105. -/
def initState : LoopState :=
  { mousePosition := (0, 0), mousePressed := false, lastMousePressed := false }

/-- Observable actions of a tick: the four probe operations and the log
lines, in program order. -/
inductive Event where
  | focusQuery : Option String → Event
  | buttonQuery : Int → Bool → Event
  | readPos : Option (Int × Int) → Event
  | writePos : Int × Int → Bool → Event
  | logRemember : Int × Int → Event
  | logSetError : Event
  | logSetPos : Int × Int → Event
  | logFocusError : Event
  | logInvalidButton : Event
  deriving DecidableEq, Repr

/-- One iteration of the loop body, main.rs lines 123-162 (minus the
sleep).  `processes` is the watched set, `button` the selected VK code. -/
def tick (processes : List String) (button : Int) (s : LoopState)
    (inp : TickInput) : LoopState × List Event :=
  let (s1, evs) :=
    match inp.activeProcess with
    | some ap =>
      if processes.contains ap then
        if inp.buttonDown then
          if !s.mousePressed then
            -- capture edge (lines 128-136): set held, read position;
            -- on Err keep old position; log the (possibly old) value
            let pos :=
              match inp.readResult with
              | some p => p
              | none => s.mousePosition
            ({ s with mousePressed := true, mousePosition := pos },
             [Event.focusQuery (some ap), Event.buttonQuery button true,
              Event.readPos inp.readResult, Event.logRemember pos])
          else
            (s, [Event.focusQuery (some ap), Event.buttonQuery button true])
        else if s.mousePressed then
          -- release edge in scope (lines 137-146)
          ({ s with mousePressed := false },
           [Event.focusQuery (some ap), Event.buttonQuery button false,
            Event.writePos s.mousePosition inp.writeOk] ++
           (if inp.writeOk then [] else [Event.logSetError]) ++
           [Event.logSetPos s.mousePosition])
        else
          (s, [Event.focusQuery (some ap), Event.buttonQuery button false])
      else if s.mousePressed then
        -- focus moved to an unwatched process while held (lines 147-155);
        -- the button is not even queried in this branch
        ({ s with mousePressed := false },
         [Event.focusQuery (some ap),
          Event.writePos s.mousePosition inp.writeOk] ++
         (if inp.writeOk then [] else [Event.logSetError]) ++
         [Event.logSetPos s.mousePosition])
      else
        (s, [Event.focusQuery (some ap)])
    | none =>
      -- focus indeterminate (lines 156-158): log and do nothing else
      (s, [Event.focusQuery none, Event.logFocusError])
  -- lines 160-162
  let s2 :=
    if s1.mousePressed != s1.lastMousePressed then
      { s1 with lastMousePressed := s1.mousePressed }
    else s1
  (s2, evs)

/-- Run the loop over a finite list of tick snapshots, collecting events. -/
def runLoop (processes : List String) (button : Int) (s : LoopState) :
    List TickInput → LoopState × List Event
  | [] => (s, [])
  | inp :: rest =>
    let t := tick processes button s inp
    let r := runLoop processes button t.1 rest
    (r.1, t.2 ++ r.2)

/-- Button selection, main.rs lines 109-117: 1 ↦ left, 2 ↦ right,
3 ↦ middle, anything else is a fatal configuration error. -/
def selectButton (b : Int) : Option Int :=
  if b = 1 then some LEFT_MOUSE_BUTTON
  else if b = 2 then some RIGHT_MOUSE_BUTTON
  else if b = 3 then some MIDDLE_MOUSE_BUTTON
  else none

/-- The whole program's observable events: an invalid `--button` logs
and returns before the loop (main.rs lines 113-116); otherwise the loop
runs over the given snapshots. -/
def mainProgram (buttonArg : Int) (processes : List String)
    (inputs : List TickInput) : List Event :=
  match selectButton buttonArg with
  | none => [Event.logInvalidButton]
  | some b => (runLoop processes b initState inputs).2

/-- Positions passed to `set_mouse_position`, in order. -/
def writes : List Event → List (Int × Int)
  | [] => []
  | Event.writePos p _ :: rest => p :: writes rest
  | _ :: rest => writes rest

/-- Number of `get_mouse_position` invocations (successful or not). -/
def countReads : List Event → Nat
  | [] => 0
  | Event.readPos _ :: rest => countReads rest + 1
  | _ :: rest => countReads rest

/-- Results of the successful `get_mouse_position` calls, in order. -/
def successfulReads : List Event → List (Int × Int)
  | [] => []
  | Event.readPos (some p) :: rest => p :: successfulReads rest
  | _ :: rest => successfulReads rest

/-- Whether an event is a probe operation (an OS query or mutation). -/
def isProbe : Event → Bool
  | Event.focusQuery _ => true
  | Event.buttonQuery _ _ => true
  | Event.readPos _ => true
  | Event.writePos _ _ => true
  | _ => false

/-- `in_scope` for a tick: the focus query succeeded and the process is
watched (main.rs lines 125-126). -/
def inScope (processes : List String) (inp : TickInput) : Bool :=
  match inp.activeProcess with
  | some ap => processes.contains ap
  | none => false

/-- The tick is in scope with the button down. -/
def inScopePressed (processes : List String) (inp : TickInput) : Bool :=
  inScope processes inp && inp.buttonDown

/-- A snapshot that fires the release edge when held: in scope with the
button up, or focus on an unwatched process (focus-indeterminate does
not qualify). -/
def releaseInput (processes : List String) (inp : TickInput) : Bool :=
  match inp.activeProcess with
  | some ap => if processes.contains ap then !inp.buttonDown else true
  | none => false

/-- The trailing `last_mouse_pressed` update (main.rs lines 160-162) always
leaves `lastMousePressed = mousePressed`. -/
theorem updateLast_eq (s : LoopState) :
    (if s.mousePressed != s.lastMousePressed
      then { s with lastMousePressed := s.mousePressed } else s) =
    { s with lastMousePressed := s.mousePressed } := by
  cases s with
  | mk pos pressed last => cases pressed <;> cases last <;> simp

/-- Branch characterization: focus indeterminate (main.rs lines 156-158). -/
theorem tick_focus_none (ps : List String) (btn : Int) (s : LoopState)
    (inp : TickInput) (hap : inp.activeProcess = none) :
    tick ps btn s inp =
      ({ s with lastMousePressed := s.mousePressed },
       [Event.focusQuery none, Event.logFocusError]) := by
  simp only [tick, hap]
  rw [updateLast_eq]

/-- Branch characterization: capture edge (main.rs lines 128-136). -/
theorem tick_capture (ps : List String) (btn : Int) (s : LoopState)
    (inp : TickInput) (ap : String) (hap : inp.activeProcess = some ap)
    (hc : ps.contains ap = true) (hbd : inp.buttonDown = true)
    (hp : s.mousePressed = false) :
    tick ps btn s inp =
      ({ mousePosition := inp.readResult.getD s.mousePosition,
         mousePressed := true, lastMousePressed := true },
       [Event.focusQuery (some ap), Event.buttonQuery btn true,
        Event.readPos inp.readResult,
        Event.logRemember (inp.readResult.getD s.mousePosition)]) := by
  obtain ⟨pos, pressed, last⟩ := s
  simp only at hp
  subst hp
  simp only [tick, hap, hc, hbd]
  cases last <;> cases hr : inp.readResult <;> simp [hr]

/-- Branch characterization: already holding, still pressed in scope
(main.rs line 128 `if !mouse_pressed` false arm): no state change, no
read. -/
theorem tick_hold (ps : List String) (btn : Int) (s : LoopState)
    (inp : TickInput) (ap : String) (hap : inp.activeProcess = some ap)
    (hc : ps.contains ap = true) (hbd : inp.buttonDown = true)
    (hp : s.mousePressed = true) :
    tick ps btn s inp =
      ({ s with lastMousePressed := true },
       [Event.focusQuery (some ap), Event.buttonQuery btn true]) := by
  obtain ⟨pos, pressed, last⟩ := s
  simp only at hp
  subst hp
  simp only [tick, hap, hc, hbd]
  cases last <;> simp

/-- Branch characterization: release edge while in scope (main.rs lines
137-146). -/
theorem tick_release_in_scope (ps : List String) (btn : Int) (s : LoopState)
    (inp : TickInput) (ap : String) (hap : inp.activeProcess = some ap)
    (hc : ps.contains ap = true) (hbd : inp.buttonDown = false)
    (hp : s.mousePressed = true) :
    tick ps btn s inp =
      ({ s with mousePressed := false, lastMousePressed := false },
       [Event.focusQuery (some ap), Event.buttonQuery btn false,
        Event.writePos s.mousePosition inp.writeOk] ++
       (if inp.writeOk then [] else [Event.logSetError]) ++
       [Event.logSetPos s.mousePosition]) := by
  obtain ⟨pos, pressed, last⟩ := s
  simp only at hp
  subst hp
  simp only [tick, hap, hc, hbd]
  cases last <;> simp

/-- Branch characterization: release edge on focus loss to an unwatched
process (main.rs lines 147-155); the button is not queried here. -/
theorem tick_release_out_scope (ps : List String) (btn : Int) (s : LoopState)
    (inp : TickInput) (ap : String) (hap : inp.activeProcess = some ap)
    (hc : ps.contains ap = false) (hp : s.mousePressed = true) :
    tick ps btn s inp =
      ({ s with mousePressed := false, lastMousePressed := false },
       [Event.focusQuery (some ap),
        Event.writePos s.mousePosition inp.writeOk] ++
       (if inp.writeOk then [] else [Event.logSetError]) ++
       [Event.logSetPos s.mousePosition]) := by
  obtain ⟨pos, pressed, last⟩ := s
  simp only at hp
  subst hp
  simp only [tick, hap, hc]
  cases last <;> simp

/-- Branch characterization: in scope, button up, not holding: no-op. -/
theorem tick_idle_in_scope (ps : List String) (btn : Int) (s : LoopState)
    (inp : TickInput) (ap : String) (hap : inp.activeProcess = some ap)
    (hc : ps.contains ap = true) (hbd : inp.buttonDown = false)
    (hp : s.mousePressed = false) :
    tick ps btn s inp =
      ({ s with lastMousePressed := false },
       [Event.focusQuery (some ap), Event.buttonQuery btn false]) := by
  obtain ⟨pos, pressed, last⟩ := s
  simp only at hp
  subst hp
  simp only [tick, hap, hc, hbd]
  cases last <;> simp

/-- Branch characterization: focus on an unwatched process, not holding:
no-op (the button is not queried). -/
theorem tick_idle_out_scope (ps : List String) (btn : Int) (s : LoopState)
    (inp : TickInput) (ap : String) (hap : inp.activeProcess = some ap)
    (hc : ps.contains ap = false) (hp : s.mousePressed = false) :
    tick ps btn s inp =
      ({ s with lastMousePressed := false },
       [Event.focusQuery (some ap)]) := by
  obtain ⟨pos, pressed, last⟩ := s
  simp only at hp
  subst hp
  simp only [tick, hap, hc]
  cases last <;> simp

theorem writes_append (l₁ l₂ : List Event) :
    writes (l₁ ++ l₂) = writes l₁ ++ writes l₂ := by
  induction l₁ with
  | nil => rfl
  | cons e rest ih => cases e <;> simp [writes, ih]

theorem countReads_append (l₁ l₂ : List Event) :
    countReads (l₁ ++ l₂) = countReads l₁ + countReads l₂ := by
  induction l₁ with
  | nil => simp [countReads]
  | cons e rest ih =>
    cases e <;> simp [countReads, ih]
    omega

theorem successfulReads_append (l₁ l₂ : List Event) :
    successfulReads (l₁ ++ l₂) = successfulReads l₁ ++ successfulReads l₂ := by
  induction l₁ with
  | nil => rfl
  | cons e rest ih =>
    cases e with
    | readPos r => cases r <;> simp [successfulReads, ih]
    | _ => simp [successfulReads, ih]

theorem runLoop_cons (ps : List String) (btn : Int) (s : LoopState)
    (inp : TickInput) (rest : List TickInput) :
    runLoop ps btn s (inp :: rest) =
      ((runLoop ps btn (tick ps btn s inp).1 rest).1,
       (tick ps btn s inp).2 ++ (runLoop ps btn (tick ps btn s inp).1 rest).2) :=
  rfl

/-- Unpack `inScopePressed` into its code-level conditions. -/
theorem inScopePressed_elim {ps : List String} {i : TickInput}
    (h : inScopePressed ps i = true) :
    ∃ ap, i.activeProcess = some ap ∧ ps.contains ap = true ∧
      i.buttonDown = true := by
  unfold inScopePressed inScope at h
  cases hap : i.activeProcess with
  | none => rw [hap] at h; simp at h
  | some ap =>
    rw [hap] at h
    simp only [Bool.and_eq_true] at h
    exact ⟨ap, rfl, h.1, h.2⟩

/-- Unpack `releaseInput` into its two code-level cases. -/
theorem releaseInput_elim {ps : List String} {inp : TickInput}
    (h : releaseInput ps inp = true) :
    ∃ ap, inp.activeProcess = some ap ∧
      (ps.contains ap = true ∧ inp.buttonDown = false ∨
       ps.contains ap = false) := by
  unfold releaseInput at h
  cases hap : inp.activeProcess with
  | none => rw [hap] at h; simp at h
  | some ap =>
    rw [hap] at h
    have h' : (if ps.contains ap = true then !inp.buttonDown else true) = true := h
    by_cases hc : ps.contains ap = true
    · rw [if_pos hc] at h'
      simp only [Bool.not_eq_true'] at h'
      exact ⟨ap, rfl, Or.inl ⟨hc, h'⟩⟩
    · exact ⟨ap, rfl, Or.inr (by simpa using hc)⟩

/-- A release edge performs exactly one write, of the currently stored
position, clears `mousePressed`, and logs the error if the write fails. -/
theorem tick_release_writes (ps : List String) (btn : Int) (s : LoopState)
    (inp : TickInput) (hheld : s.mousePressed = true)
    (hrel : releaseInput ps inp = true) :
    writes (tick ps btn s inp).2 = [s.mousePosition] ∧
    (tick ps btn s inp).1.mousePressed = false ∧
    (inp.writeOk = false → Event.logSetError ∈ (tick ps btn s inp).2) := by
  obtain ⟨ap, hap, hd⟩ := releaseInput_elim hrel
  rcases hd with ⟨hc, hbd⟩ | hc
  · rw [tick_release_in_scope ps btn s inp ap hap hc hbd hheld]
    cases hw : inp.writeOk <;> simp [writes_append, writes]
  · rw [tick_release_out_scope ps btn s inp ap hap hc hheld]
    cases hw : inp.writeOk <;> simp [writes_append, writes]

/-- While already holding, a streak of in-scope-and-pressed ticks performs
no position reads and leaves the stored position untouched. -/
theorem runLoop_hold (ps : List String) (btn : Int) :
    ∀ (ins : List TickInput) (s : LoopState), s.mousePressed = true →
      (∀ i ∈ ins, inScopePressed ps i = true) →
      countReads (runLoop ps btn s ins).2 = 0 ∧
      (runLoop ps btn s ins).1.mousePressed = true ∧
      (runLoop ps btn s ins).1.mousePosition = s.mousePosition := by
  intro ins
  induction ins with
  | nil => intro s h _; simp [runLoop, countReads, h]
  | cons i rest ih =>
    intro s hheld hall
    obtain ⟨ap, hap, hc, hbd⟩ :=
      inScopePressed_elim (hall i (List.mem_cons_self i rest))
    rw [runLoop_cons, tick_hold ps btn s i ap hap hc hbd hheld]
    have hih := ih { s with lastMousePressed := true } hheld
      (fun j hj => hall j (List.mem_cons_of_mem i hj))
    simpa [countReads_append, countReads] using hih

/-- A single tick leaves `mousePosition` equal to the last successful
position read of that tick, defaulting to the previous value. -/
theorem tick_pos_lastRead (ps : List String) (btn : Int) (s : LoopState)
    (inp : TickInput) :
    (tick ps btn s inp).1.mousePosition =
      ((successfulReads (tick ps btn s inp).2).getLast?).getD
        s.mousePosition := by
  cases hap : inp.activeProcess with
  | none =>
    rw [tick_focus_none ps btn s inp hap]
    simp [successfulReads]
  | some ap =>
    by_cases hc : ps.contains ap = true
    · cases hbd : inp.buttonDown
      · cases hp : s.mousePressed
        · rw [tick_idle_in_scope ps btn s inp ap hap hc hbd hp]
          simp [successfulReads]
        · rw [tick_release_in_scope ps btn s inp ap hap hc hbd hp]
          cases hw : inp.writeOk <;> simp [successfulReads_append, successfulReads]
      · cases hp : s.mousePressed
        · rw [tick_capture ps btn s inp ap hap hc hbd hp]
          cases hr : inp.readResult <;> simp [successfulReads]
        · rw [tick_hold ps btn s inp ap hap hc hbd hp]
          simp [successfulReads]
    · have hc2 : ps.contains ap = false := by simpa using hc
      cases hp : s.mousePressed
      · rw [tick_idle_out_scope ps btn s inp ap hap hc2 hp]
        simp [successfulReads]
      · rw [tick_release_out_scope ps btn s inp ap hap hc2 hp]
        cases hw : inp.writeOk <;> simp [successfulReads_append, successfulReads]

/-- Over any run, `mousePosition` is the result of the most recent
successful `get_mouse_position` call, defaulting to the start value. -/
theorem runLoop_pos_lastRead (ps : List String) (btn : Int) :
    ∀ (ins : List TickInput) (s : LoopState),
      (runLoop ps btn s ins).1.mousePosition =
        ((successfulReads (runLoop ps btn s ins).2).getLast?).getD
          s.mousePosition := by
  intro ins
  induction ins with
  | nil => intro s; simp [runLoop, successfulReads]
  | cons i rest ih =>
    intro s
    rw [runLoop_cons]
    have ht := tick_pos_lastRead ps btn s i
    have hr := ih (tick ps btn s i).1
    simp only [successfulReads_append, List.getLast?_append]
    cases h2 : (successfulReads (runLoop ps btn (tick ps btn s i).1 rest).2).getLast? with
    | none => simp only [h2, Option.none_or] at hr ⊢; rw [hr, ht]; simp
    | some p => simp only [h2, Option.or_some] at hr ⊢; rw [hr]; rfl

/-- The loop state with the dead `last_mouse_pressed` variable removed
(claim C10's modified program). -/
structure CoreState where
  mousePosition : Int × Int
  mousePressed : Bool
  deriving DecidableEq, Repr

/-- Forget the `lastMousePressed` component. -/
def projCore (s : LoopState) : CoreState :=
  { mousePosition := s.mousePosition, mousePressed := s.mousePressed }

/-- The loop body of main.rs lines 123-158 with lines 160-162 (the
`last_mouse_pressed` update) removed. -/
def tickCore (processes : List String) (button : Int) (s : CoreState)
    (inp : TickInput) : CoreState × List Event :=
  match inp.activeProcess with
  | some ap =>
    if processes.contains ap then
      if inp.buttonDown then
        if !s.mousePressed then
          let pos :=
            match inp.readResult with
            | some p => p
            | none => s.mousePosition
          ({ s with mousePressed := true, mousePosition := pos },
           [Event.focusQuery (some ap), Event.buttonQuery button true,
            Event.readPos inp.readResult, Event.logRemember pos])
        else
          (s, [Event.focusQuery (some ap), Event.buttonQuery button true])
      else if s.mousePressed then
        ({ s with mousePressed := false },
         [Event.focusQuery (some ap), Event.buttonQuery button false,
          Event.writePos s.mousePosition inp.writeOk] ++
         (if inp.writeOk then [] else [Event.logSetError]) ++
         [Event.logSetPos s.mousePosition])
      else
        (s, [Event.focusQuery (some ap), Event.buttonQuery button false])
    else if s.mousePressed then
      ({ s with mousePressed := false },
       [Event.focusQuery (some ap),
        Event.writePos s.mousePosition inp.writeOk] ++
       (if inp.writeOk then [] else [Event.logSetError]) ++
       [Event.logSetPos s.mousePosition])
    else
      (s, [Event.focusQuery (some ap)])
  | none => (s, [Event.focusQuery none, Event.logFocusError])

/-- Run the reduced loop over a finite list of tick snapshots. -/
def runLoopCore (ps : List String) (btn : Int) (s : CoreState) :
    List TickInput → CoreState × List Event
  | [] => (s, [])
  | inp :: rest =>
    let t := tickCore ps btn s inp
    let r := runLoopCore ps btn t.1 rest
    (r.1, t.2 ++ r.2)

/-- One tick of the original loop and of the reduced loop agree on events
and on the `(mousePosition, mousePressed)` projection. -/
theorem tickCore_sim (ps : List String) (btn : Int) (s : LoopState)
    (inp : TickInput) :
    (tick ps btn s inp).2 = (tickCore ps btn (projCore s) inp).2 ∧
    projCore (tick ps btn s inp).1 = (tickCore ps btn (projCore s) inp).1 := by
  cases hap : inp.activeProcess with
  | none =>
    rw [tick_focus_none ps btn s inp hap]
    simp [tickCore, hap, projCore]
  | some ap =>
    by_cases hc : ps.contains ap = true
    · have hm : ap ∈ ps := by simpa using hc
      cases hbd : inp.buttonDown
      · cases hp : s.mousePressed
        · rw [tick_idle_in_scope ps btn s inp ap hap hc hbd hp]
          simp [tickCore, hap, hm, hbd, hp, projCore]
        · rw [tick_release_in_scope ps btn s inp ap hap hc hbd hp]
          simp [tickCore, hap, hm, hbd, hp, projCore]
      · cases hp : s.mousePressed
        · rw [tick_capture ps btn s inp ap hap hc hbd hp]
          cases hr : inp.readResult <;>
            simp [tickCore, hap, hm, hbd, hp, hr, projCore]
        · rw [tick_hold ps btn s inp ap hap hc hbd hp]
          simp [tickCore, hap, hm, hbd, hp, projCore]
    · have hc2 : ps.contains ap = false := by simpa using hc
      have hm : ¬ap ∈ ps := by simpa using hc
      cases hp : s.mousePressed
      · rw [tick_idle_out_scope ps btn s inp ap hap hc2 hp]
        simp [tickCore, hap, hm, hp, projCore]
      · rw [tick_release_out_scope ps btn s inp ap hap hc2 hp]
        simp [tickCore, hap, hm, hp, projCore]

/-- Concrete watched set used by the concrete traces below. -/
def watchedA : List String := ["A"]

/-- Concrete snapshot: watched process focused, button down, read succeeds. -/
def pressIn : TickInput :=
  { activeProcess := some "A", buttonDown := true,
    readResult := some (5, 5), writeOk := true }

/-- Concrete snapshot: focus query fails while the button stays down. -/
def focusGapIn : TickInput :=
  { activeProcess := none, buttonDown := true,
    readResult := none, writeOk := true }

/-- Concrete snapshot: watched process focused, button up. -/
def releaseIn : TickInput :=
  { activeProcess := some "A", buttonDown := false,
    readResult := none, writeOk := true }

/-- Concrete snapshot: watched process focused, button down, read fails. -/
def failReadIn : TickInput :=
  { activeProcess := some "A", buttonDown := true,
    readResult := none, writeOk := true }

/-- Concrete snapshot: unwatched process focused, button still down. -/
def unwatchedPressIn : TickInput :=
  { activeProcess := some "B", buttonDown := true,
    readResult := none, writeOk := true }

/-- Concrete snapshot: release edge whose restore write fails. -/
def releaseFailIn : TickInput :=
  { activeProcess := some "A", buttonDown := false,
    readResult := none, writeOk := false }

/-- Concrete holding state with a stored position. -/
def heldAt99 : LoopState :=
  { mousePosition := (9, 9), mousePressed := true, lastMousePressed := true }

/-- C1 (amended): for a run of consecutive in-scope-and-pressed ticks that
begins with `mouse_pressed == false`, `get_mouse_position` is invoked
exactly once, on the first tick of the run, and the stored position does
not change on the later ticks of the run. -/
theorem capture_once (ps : List String) (btn : Int) (s : LoopState)
    (i : TickInput) (rest : List TickInput)
    (hheld : s.mousePressed = false)
    (hi : inScopePressed ps i = true)
    (hrest : ∀ j ∈ rest, inScopePressed ps j = true) :
    countReads (tick ps btn s i).2 = 1 ∧
    countReads (runLoop ps btn s (i :: rest)).2 = 1 ∧
    (runLoop ps btn s (i :: rest)).1.mousePosition =
      (tick ps btn s i).1.mousePosition := by
  obtain ⟨ap, hap, hc, hbd⟩ := inScopePressed_elim hi
  rw [runLoop_cons, tick_capture ps btn s i ap hap hc hbd hheld]
  have hih := runLoop_hold ps btn rest
    { mousePosition := i.readResult.getD s.mousePosition,
      mousePressed := true, lastMousePressed := true } rfl hrest
  simp [countReads_append, countReads, hih.1, hih.2.2]

/-- Witness for C1 at a concrete two-tick run. -/
theorem capture_once_witness :
    countReads (tick watchedA 2 initState pressIn).2 = 1 ∧
    countReads (runLoop watchedA 2 initState [pressIn, pressIn]).2 = 1 ∧
    (runLoop watchedA 2 initState [pressIn, pressIn]).1.mousePosition =
      (tick watchedA 2 initState pressIn).1.mousePosition :=
  capture_once watchedA 2 initState pressIn [pressIn] rfl (by decide)
    (by intro j hj; rw [List.mem_singleton] at hj; subst hj; decide)

/-- Counterexample to C1 as stated: after a press in scope (tick 1) and a
focus-indeterminate tick (tick 2, not part of the run, but it leaves the
hold in place), tick 3 starts a new run of in-scope-and-pressed ticks on
which `get_mouse_position` is invoked zero times, not once, because
`mouse_pressed` is still set from before the run. -/
theorem capture_once_counterexample :
    inScopePressed watchedA pressIn = true ∧
    inScopePressed watchedA focusGapIn = false ∧
    countReads
      (tick watchedA 2
        (runLoop watchedA 2 initState [pressIn, focusGapIn]).1 pressIn).2 = 0 := by
  decide

/-- C2 (confirmed): on every release edge — held, and either in scope with
the button up, or focused on an unwatched process — `set_mouse_position`
is invoked exactly once with exactly the stored coordinates, and the hold
flag is cleared. -/
theorem release_restores (ps : List String) (btn : Int) (s : LoopState)
    (inp : TickInput) (x0 y0 : Int)
    (hheld : s.mousePressed = true)
    (hcap : s.mousePosition = (x0, y0))
    (hrel : releaseInput ps inp = true) :
    writes (tick ps btn s inp).2 = [(x0, y0)] ∧
    (tick ps btn s inp).1.mousePressed = false :=
  have h := tick_release_writes ps btn s inp hheld hrel
  ⟨hcap ▸ h.1, h.2.1⟩

/-- Witness for C2 at a concrete release. -/
theorem release_restores_witness :
    writes (tick watchedA 2 heldAt99 releaseIn).2 = [(9, 9)] ∧
    (tick watchedA 2 heldAt99 releaseIn).1.mousePressed = false :=
  release_restores watchedA 2 heldAt99 releaseIn 9 9 rfl rfl (by decide)

/-- Counterexample to C3 as stated: from the initial state the capture
edge's read fails, so no position is ever successfully captured, yet the
following release edge still invokes `set_mouse_position` — with the
initial (0, 0) — instead of skipping the write; the event list also
contains no distinct missing-capture log. -/
theorem missing_capture_counterexample :
    successfulReads (runLoop watchedA 2 initState [failReadIn, releaseIn]).2
      = [] ∧
    writes (runLoop watchedA 2 initState [failReadIn, releaseIn]).2
      = [(0, 0)] := by
  decide

/-- C3 (amended): the code tracks no missing-capture condition — when no
`get_mouse_position` call has ever succeeded, a release edge still
performs the restore write, using the initial position (0, 0), and no
distinct condition is logged. -/
theorem missing_capture_release_writes (ps : List String) (btn : Int)
    (ins : List TickInput) (inp : TickInput)
    (hnoread : successfulReads (runLoop ps btn initState ins).2 = [])
    (hheld : (runLoop ps btn initState ins).1.mousePressed = true)
    (hrel : releaseInput ps inp = true) :
    writes (tick ps btn (runLoop ps btn initState ins).1 inp).2 = [(0, 0)] := by
  have hpos : (runLoop ps btn initState ins).1.mousePosition = (0, 0) := by
    rw [runLoop_pos_lastRead ps btn ins initState, hnoread]
    rfl
  have h := tick_release_writes ps btn (runLoop ps btn initState ins).1 inp
    hheld hrel
  rw [h.1, hpos]

/-- Witness for the amended C3 at a concrete failed-capture trace. -/
theorem missing_capture_release_writes_witness :
    writes (tick watchedA 2
      (runLoop watchedA 2 initState [failReadIn]).1 releaseIn).2 = [(0, 0)] :=
  missing_capture_release_writes watchedA 2 [failReadIn] releaseIn
    (by decide) (by decide) (by decide)

/-- C4 (confirmed): from `mouse_pressed == true`, a tick whose focus query
succeeds with a process outside the watched set performs exactly one
restore write of the stored position and clears the hold, regardless of
the button state — the button is not even queried on this path. -/
theorem focus_loss_release (ps : List String) (btn : Int) (s : LoopState)
    (inp : TickInput) (ap : String)
    (hheld : s.mousePressed = true)
    (hap : inp.activeProcess = some ap)
    (hout : ps.contains ap = false) :
    writes (tick ps btn s inp).2 = [s.mousePosition] ∧
    (tick ps btn s inp).1.mousePressed = false := by
  rw [tick_release_out_scope ps btn s inp ap hap hout hheld]
  cases hw : inp.writeOk <;> simp [writes_append, writes]

/-- Witness for C4 with the button still down. -/
theorem focus_loss_release_witness :
    writes (tick watchedA 2 heldAt99 unwatchedPressIn).2
      = [heldAt99.mousePosition] ∧
    (tick watchedA 2 heldAt99 unwatchedPressIn).1.mousePressed = false :=
  focus_loss_release watchedA 2 heldAt99 unwatchedPressIn "B" rfl rfl
    (by decide)

/-- Counterexample to C5 as stated: with the hold active (reached by a
real press tick), a focus-indeterminate tick does NOT fire the release
edge — no write is performed and the hold stays set — so the tick is not
treated exactly as `in_scope = false` (which, while held, would release). -/
theorem focus_indeterminate_counterexample :
    (runLoop watchedA 2 initState [pressIn]).1.mousePressed = true ∧
    writes (tick watchedA 2
      (runLoop watchedA 2 initState [pressIn]).1 focusGapIn).2 = [] ∧
    (tick watchedA 2
      (runLoop watchedA 2 initState [pressIn]).1 focusGapIn).1.mousePressed
      = true := by
  decide

/-- C5 (amended): a focus-indeterminate tick logs the failure and does
nothing else — the hold flag and stored position are unchanged and no
write is performed, even when holding; the loop does not crash and simply
continues with the next tick. -/
theorem focus_indeterminate_noop (ps : List String) (btn : Int)
    (s : LoopState) (inp : TickInput)
    (hap : inp.activeProcess = none) :
    (tick ps btn s inp).2 = [Event.focusQuery none, Event.logFocusError] ∧
    (tick ps btn s inp).1.mousePressed = s.mousePressed ∧
    (tick ps btn s inp).1.mousePosition = s.mousePosition ∧
    writes (tick ps btn s inp).2 = [] := by
  rw [tick_focus_none ps btn s inp hap]
  simp [writes]

/-- Witness for the amended C5 while holding. -/
theorem focus_indeterminate_noop_witness :
    (tick watchedA 2 heldAt99 focusGapIn).2
      = [Event.focusQuery none, Event.logFocusError] ∧
    (tick watchedA 2 heldAt99 focusGapIn).1.mousePressed
      = heldAt99.mousePressed ∧
    (tick watchedA 2 heldAt99 focusGapIn).1.mousePosition
      = heldAt99.mousePosition ∧
    writes (tick watchedA 2 heldAt99 focusGapIn).2 = [] :=
  focus_indeterminate_noop watchedA 2 heldAt99 focusGapIn rfl

/-- C6 (confirmed): on any tick that starts with `mouse_pressed == false`,
`set_mouse_position` is not invoked, whatever the inputs — the pointer is
only ever force-set on a release edge. -/
theorem no_spurious_writes (ps : List String) (btn : Int) (s : LoopState)
    (inp : TickInput) (h : s.mousePressed = false) :
    writes (tick ps btn s inp).2 = [] := by
  cases hap : inp.activeProcess with
  | none => rw [tick_focus_none ps btn s inp hap]; rfl
  | some ap =>
    by_cases hc : ps.contains ap = true
    · cases hbd : inp.buttonDown
      · rw [tick_idle_in_scope ps btn s inp ap hap hc hbd h]; rfl
      · rw [tick_capture ps btn s inp ap hap hc hbd h]; rfl
    · rw [tick_idle_out_scope ps btn s inp ap hap (by simpa using hc) h]; rfl

/-- Witness for C6 on a capture edge (a read, but no write). -/
theorem no_spurious_writes_witness :
    writes (tick watchedA 2 initState pressIn).2 = [] :=
  no_spurious_writes watchedA 2 initState pressIn rfl

/-- Counterexample to C7 as stated: capture (5, 5) on tick 1, release on
tick 2, then a new capture edge on tick 3 whose read fails.  Tick 3 is
the most recent transition into the held state and no read succeeds at or
after it, yet the stored position is (5, 5) — a stale value read during
the earlier press — so the invariant fails at the end of tick 3. -/
theorem stale_capture_counterexample :
    (runLoop watchedA 2 initState [pressIn, releaseIn]).1.mousePressed
      = false ∧
    (tick watchedA 2
      (runLoop watchedA 2 initState [pressIn, releaseIn]).1
      failReadIn).1.mousePressed = true ∧
    successfulReads (tick watchedA 2
      (runLoop watchedA 2 initState [pressIn, releaseIn]).1
      failReadIn).2 = [] ∧
    (tick watchedA 2
      (runLoop watchedA 2 initState [pressIn, releaseIn]).1
      failReadIn).1.mousePosition = (5, 5) := by
  decide

/-- C7 (amended): what the code guarantees instead — at every point the
stored position equals the most recent successful `get_mouse_position`
result, defaulting to the initial (0, 0); a failed read on a capture edge
leaves the previous (possibly stale or initial) value in place while the
hold flag becomes true. -/
theorem held_position_is_last_read (ps : List String) (btn : Int)
    (ins : List TickInput) :
    (runLoop ps btn initState ins).1.mousePosition =
      ((successfulReads (runLoop ps btn initState ins).2).getLast?).getD
        (0, 0) :=
  runLoop_pos_lastRead ps btn ins initState

/-- C8 (confirmed): when the restore write fails on a release edge, the
error is logged, the hold flag is still cleared in the same tick, and the
write is not retried — exactly one write is attempted. -/
theorem write_failure_still_clears (ps : List String) (btn : Int)
    (s : LoopState) (inp : TickInput)
    (hheld : s.mousePressed = true)
    (hrel : releaseInput ps inp = true)
    (hfail : inp.writeOk = false) :
    writes (tick ps btn s inp).2 = [s.mousePosition] ∧
    (tick ps btn s inp).1.mousePressed = false ∧
    Event.logSetError ∈ (tick ps btn s inp).2 :=
  have h := tick_release_writes ps btn s inp hheld hrel
  ⟨h.1, h.2.1, h.2.2 hfail⟩

/-- Witness for C8 at a concrete failing release. -/
theorem write_failure_still_clears_witness :
    writes (tick watchedA 2 heldAt99 releaseFailIn).2
      = [heldAt99.mousePosition] ∧
    (tick watchedA 2 heldAt99 releaseFailIn).1.mousePressed = false ∧
    Event.logSetError ∈ (tick watchedA 2 heldAt99 releaseFailIn).2 :=
  write_failure_still_clears watchedA 2 heldAt99 releaseFailIn rfl
    (by decide) rfl

/-- C9 (confirmed): any `--button` value other than 1, 2, 3 logs an error
and returns before the loop starts, so no probe operation is ever
invoked; 1, 2 and 3 select the left, right and middle button codes
respectively (2 being clap's declared default). -/
theorem invalid_button_fatal (b : Int) (ps : List String)
    (ins : List TickInput) :
    (b ≠ 1 → b ≠ 2 → b ≠ 3 →
      mainProgram b ps ins = [Event.logInvalidButton] ∧
      ∀ e ∈ mainProgram b ps ins, isProbe e = false) ∧
    selectButton 1 = some LEFT_MOUSE_BUTTON ∧
    selectButton 2 = some RIGHT_MOUSE_BUTTON ∧
    selectButton 3 = some MIDDLE_MOUSE_BUTTON := by
  refine ⟨?_, by decide, by decide, by decide⟩
  intro h1 h2 h3
  have hsel : selectButton b = none := by
    unfold selectButton
    rw [if_neg h1, if_neg h2, if_neg h3]
  have hm : mainProgram b ps ins = [Event.logInvalidButton] := by
    unfold mainProgram
    rw [hsel]
  refine ⟨hm, ?_⟩
  rw [hm]
  intro e he
  rw [List.mem_singleton] at he
  subst he
  rfl

/-- Witness for C9 at the spec's own scenario, `--button 5`. -/
theorem invalid_button_fatal_witness :
    mainProgram 5 [] [] = [Event.logInvalidButton] ∧
    ∀ e ∈ mainProgram 5 [] [], isProbe e = false :=
  (invalid_button_fatal 5 [] []).1 (by decide) (by decide) (by decide)

/-- C10 (confirmed): the loop with the dead `last_mouse_pressed`
variable and its lines 160-162 update removed is observationally
equivalent to the original — for every start state and input sequence it
emits the same probe calls and log events and reaches the same
`(mousePosition, mousePressed)` state; since this holds for every input
list, it holds after every tick of every run. -/
theorem dead_last_mouse_pressed (ps : List String) (btn : Int) :
    ∀ (ins : List TickInput) (s : LoopState),
      (runLoop ps btn s ins).2 = (runLoopCore ps btn (projCore s) ins).2 ∧
      projCore (runLoop ps btn s ins).1
        = (runLoopCore ps btn (projCore s) ins).1 := by
  intro ins
  induction ins with
  | nil => intro s; simp [runLoop, runLoopCore, projCore]
  | cons i rest ih =>
    intro s
    have ht := tickCore_sim ps btn s i
    have hr := ih (tick ps btn s i).1
    rw [runLoop_cons]
    constructor
    · show (tick ps btn s i).2
        ++ (runLoop ps btn (tick ps btn s i).1 rest).2 = _
      rw [ht.1, hr.1, ht.2]
      rfl
    · show projCore (runLoop ps btn (tick ps btn s i).1 rest).1 = _
      rw [hr.2, ht.2]
      rfl

end CursorClamp
